import Mathlib

/- Shallow embedding of pgpdump/packet.py, the OpenPGP packet framing
decoder.  Byte buffers are `List Nat` whose elements are byte values.
Python index errors and raised exceptions become an explicit error type,
and Python datetime values are modelled by their integer
seconds-since-epoch timestamps. -/

deriving instance DecidableEq for Except

namespace Pgpdump

/-- Python exceptions that the decoder can raise. -/
inductive PErr where
  | indexError
  | malformed
  | typeError
  | attributeError
  | unicodeDecodeError
deriving DecidableEq, Repr

/-- Modelled from the spec: read_u16 (utils.get_int2 is not under src). A
big-endian unsigned 2-byte read, failing when it would pass the buffer end. -/
def get_int2 (data : List Nat) (off : Nat) : Option Nat :=
  match data[off]?, data[off + 1]? with
  | some a, some b => some (a * 256 + b)
  | _, _ => none

/-- Modelled from the spec: read_u32 (utils.get_int4 is not under src). A
big-endian unsigned 4-byte read, failing when it would pass the buffer end. -/
def get_int4 (data : List Nat) (off : Nat) : Option Nat :=
  match data[off]?, data[off + 1]?, data[off + 2]?, data[off + 3]? with
  | some a, some b, some c, some d => some (((a * 256 + b) * 256 + c) * 256 + d)
  | _, _, _, _ => none

/-- Modelled from the spec: read_key_id (utils.get_key_id is not under src).
Returns the 8-byte slice at the offset, failing on insufficient length. -/
def get_key_id (data : List Nat) (off : Nat) : Option (List Nat) :=
  if off + 8 ≤ data.length then some ((data.drop off).take 8) else none

/-- Big-endian integer value of a byte list. -/
def be_value (bs : List Nat) : Nat :=
  bs.foldl (fun acc b => acc * 256 + b) 0

/-- Modelled from the spec: read_mpi (utils.get_mpi is not under src). Reads a
2-byte bit length, then ceil(bits/8) bytes as a big-endian integer, returning
the value and the new offset; fails on insufficient bytes. -/
def get_mpi (data : List Nat) (off : Nat) : Option (Nat × Nat) :=
  match get_int2 data off with
  | none => none
  | some bits =>
    let blen := (bits + 7) / 8
    if off + 2 + blen ≤ data.length then
      some (be_value ((data.drop (off + 2)).take blen), off + 2 + blen)
    else none

/-- new_tag_length from packet.py: new-style length decoding at start,
returning (extra header bytes after the first, body length, partial flag). -/
def new_tag_length (data : List Nat) (start : Nat) : Option (Nat × Nat × Bool) :=
  match data[start]? with
  | none => none
  | some first =>
    if first < 192 then some (0, first, false)
    else if first < 224 then
      match data[start + 1]? with
      | none => none
      | some b2 => some (1, ((first - 192) <<< 8) + b2 + 192, false)
    else if first = 255 then
      match get_int4 data (start + 1) with
      | none => none
      | some n => some (4, n, false)
    else some (0, 1 <<< (first &&& 31), true)

/-- old_tag_length from packet.py: old-style length decoding from the 2-bit
length-type field of the tag byte at start, returning
(extra header bytes after the tag byte, body length). -/
def old_tag_length (data : List Nat) (start : Nat) : Option (Nat × Nat) :=
  match data[start]? with
  | none => none
  | some b =>
    let t := b &&& 3
    if t = 0 then
      match data[start + 1]? with
      | none => none
      | some x => some (1, x)
    else if t = 1 then
      match get_int2 data (start + 1) with
      | none => none
      | some x => some (2, x)
    else if t = 2 then
      match get_int4 data (start + 1) with
      | none => none
      | some x => some (4, x)
    else some (0, data.length - start - 1)

/- SHA-1, modelling Python hashlib.sha1 (an external library used by
PublicKeyPacket.parse), implemented from its standard definition over
32-bit words represented as Nat values reduced mod 2^32. -/

/-- Rotate the 32-bit value b left by n bits. -/
def rotl (n b : Nat) : Nat :=
  Nat.lor ((b <<< n) % 4294967296) (b >>> (32 - n))

/-- Big-endian 8-byte encoding of a 64-bit value. -/
def be_len_bytes (v : Nat) : List Nat :=
  [v / 72057594037927936 % 256, v / 281474976710656 % 256,
   v / 1099511627776 % 256, v / 4294967296 % 256,
   v / 16777216 % 256, v / 65536 % 256, v / 256 % 256, v % 256]

/-- SHA-1 message padding: a 0x80 byte, zeros to 56 mod 64, then the
big-endian 64-bit bit length. -/
def sha1_pad (msg : List Nat) : List Nat :=
  msg ++ 128 :: (List.replicate ((119 - msg.length % 64) % 64) 0 ++ be_len_bytes (msg.length * 8))

/-- Split a byte list into 64-byte chunks; fuel bounds the recursion and any
value at least the list length is enough, since each step drops 64 bytes. -/
def chunks64 (fuel : Nat) (l : List Nat) : List (List Nat) :=
  match fuel with
  | 0 => []
  | fuel + 1 => if l = [] then [] else l.take 64 :: chunks64 fuel (l.drop 64)

/-- The 16 big-endian 32-bit words of a 64-byte block. -/
def block_words (block : List Nat) : List Nat :=
  (List.range 16).map fun i =>
    ((block.getD (4 * i) 0 * 256 + block.getD (4 * i + 1) 0) * 256 +
      block.getD (4 * i + 2) 0) * 256 + block.getD (4 * i + 3) 0

/-- Extend the 16 block words to the 80-word SHA-1 message schedule. -/
def sha1_schedule (ws16 : List Nat) : List Nat :=
  (List.range 64).foldl
    (fun ws j =>
      let i := j + 16
      ws ++ [rotl 1 (Nat.xor (Nat.xor (ws.getD (i - 3) 0) (ws.getD (i - 8) 0))
        (Nat.xor (ws.getD (i - 14) 0) (ws.getD (i - 16) 0)))])
    ws16

/-- The SHA-1 round function. -/
def sha1_f (i b c d : Nat) : Nat :=
  if i < 20 then Nat.lor (Nat.land b c) (Nat.land (Nat.xor b 4294967295) d)
  else if i < 40 then Nat.xor (Nat.xor b c) d
  else if i < 60 then Nat.lor (Nat.lor (Nat.land b c) (Nat.land b d)) (Nat.land c d)
  else Nat.xor (Nat.xor b c) d

/-- The SHA-1 round constants. -/
def sha1_k (i : Nat) : Nat :=
  if i < 20 then 1518500249
  else if i < 40 then 1859775393
  else if i < 60 then 2400959708
  else 3395469782

/-- One SHA-1 compression round. -/
def sha1_step (st : Nat × Nat × Nat × Nat × Nat) (i w : Nat) : Nat × Nat × Nat × Nat × Nat :=
  let a := st.1
  let b := st.2.1
  let c := st.2.2.1
  let d := st.2.2.2.1
  let e := st.2.2.2.2
  ((rotl 5 a + sha1_f i b c d + e + sha1_k i + w) % 4294967296, a, rotl 30 b, c, d)

/-- SHA-1 compression of one 64-byte block. -/
def sha1_compress (h : Nat × Nat × Nat × Nat × Nat) (block : List Nat) :
    Nat × Nat × Nat × Nat × Nat :=
  let ws := sha1_schedule (block_words block)
  let f := (List.range 80).foldl (fun st i => sha1_step st i (ws.getD i 0)) h
  ((h.1 + f.1) % 4294967296, (h.2.1 + f.2.1) % 4294967296,
   (h.2.2.1 + f.2.2.1) % 4294967296, (h.2.2.2.1 + f.2.2.2.1) % 4294967296,
   (h.2.2.2.2 + f.2.2.2.2) % 4294967296)

/-- The SHA-1 initial chaining value. -/
def sha1_init : Nat × Nat × Nat × Nat × Nat :=
  (1732584193, 4023233417, 2562383102, 271733878, 3285377520)

/-- The five 32-bit digest words of a message. -/
def sha1_digest_words (msg : List Nat) : Nat × Nat × Nat × Nat × Nat :=
  let padded := sha1_pad msg
  (chunks64 padded.length padded).foldl sha1_compress sha1_init

/-- The 4 big-endian bytes of a 32-bit word. -/
def word_bytes (w : Nat) : List Nat :=
  [w / 16777216 % 256, w / 65536 % 256, w / 256 % 256, w % 256]

/-- The 20-byte SHA-1 digest of a byte list. -/
def sha1_bytes (msg : List Nat) : List Nat :=
  word_bytes (sha1_digest_words msg).1 ++ word_bytes (sha1_digest_words msg).2.1 ++
  word_bytes (sha1_digest_words msg).2.2.1 ++ word_bytes (sha1_digest_words msg).2.2.2.1 ++
  word_bytes (sha1_digest_words msg).2.2.2.2

/-- Uppercase hexadecimal digit for a value below 16. -/
def hex_upper_digit (n : Nat) : Char :=
  if n < 10 then Char.ofNat (48 + n) else Char.ofNat (55 + n)

/-- Uppercase hexadecimal rendering of the SHA-1 digest, as
hexdigest().upper() produces. -/
def sha1_hex_upper (msg : List Nat) : List Char :=
  (sha1_bytes msg).foldr (fun b acc => hex_upper_digit (b / 16) :: hex_upper_digit (b % 16) :: acc) []

/- Signature packets (class SignaturePacket). -/

/-- SignatureSubpacket from packet.py: the raw type byte, the 7-bit subtype,
the hashed-region flag, the critical bit, and the data slice. -/
structure SignatureSubpacket where
  raw : Nat
  subtype : Nat
  hashed : Bool
  critical : Bool
  length : Nat
  data : List Nat
deriving DecidableEq, Repr

/-- SignatureSubpacket.__init__: subtype and critical bit derive from the raw
type byte. -/
def SignatureSubpacket.make (raw : Nat) (hashed : Bool) (data : List Nat) : SignatureSubpacket :=
  ⟨raw, raw &&& 127, hashed, raw &&& 128 != 0, data.length, data⟩

/-- The mutable fields of SignaturePacket, all unset by __init__. -/
structure SigFields where
  sig_version : Option Nat
  raw_sig_type : Option Nat
  raw_pub_algorithm : Option Nat
  raw_hash_algorithm : Option Nat
  raw_creation_time : Option Nat
  creation_time : Option Nat
  raw_expiration_time : Option Nat
  expiration_time : Option Nat
  key_id : Option (List Nat)
  hash2 : Option (List Nat)
  subpackets : List SignatureSubpacket
deriving DecidableEq, Repr

/-- The all-unset state SignaturePacket.__init__ leaves before parse runs. -/
def SigFields.init : SigFields :=
  ⟨none, none, none, none, none, none, none, none, none, none, []⟩

/-- The side effects of scanning one subpacket in parse_subpackets: the
subtype-2, subtype-3 and subtype-16 field overwrites, plus appending the
subpacket; failed fixed-width reads raise an index error. -/
def apply_sub (st : SigFields) (sp : SignatureSubpacket) : Except PErr SigFields :=
  if sp.subtype = 2 then
    match get_int4 sp.data 0 with
    | none => .error .indexError
    | some v => .ok { st with raw_creation_time := some v, creation_time := some v,
                              subpackets := st.subpackets ++ [sp] }
  else if sp.subtype = 3 then
    match get_int4 sp.data 0 with
    | none => .error .indexError
    | some v => .ok { st with raw_expiration_time := some v,
                              subpackets := st.subpackets ++ [sp] }
  else if sp.subtype = 16 then
    match get_key_id sp.data 0 with
    | none => .error .indexError
    | some k => .ok { st with key_id := some k,
                              subpackets := st.subpackets ++ [sp] }
  else .ok { st with subpackets := st.subpackets ++ [sp] }

/-- Folding the per-subpacket side effects over a subpacket list. -/
def scan_fold (st : SigFields) : List SignatureSubpacket → Except PErr SigFields
  | [] => .ok st
  | sp :: L =>
    match apply_sub st sp with
    | .error e => .error e
    | .ok st1 => scan_fold st1 L

/-- The while loop of SignaturePacket.parse_subpackets.  Each iteration reads
a new-style length, the subtype byte and the data slice and applies the side
effects.  The fuel argument only bounds the recursion: every iteration
advances offset by 1 + sub_offset + len0, which is at least 1, and the loop
runs only while offset < endPos, so any fuel exceeding endPos - offset is
never exhausted; callers pass outer_length + 1. -/
def parse_subpackets_loop (data : List Nat) (endPos : Nat) (hashed : Bool) :
    Nat → Nat → SigFields → Except PErr SigFields
  | 0, _, st => .ok st
  | fuel + 1, offset, st =>
    if offset < endPos then
      match new_tag_length data offset with
      | none => .error .indexError
      | some (sub_offset, len0, _) =>
        match data[offset + 1 + sub_offset]? with
        | none => .error .indexError
        | some raw =>
          let sp := SignatureSubpacket.make raw hashed
            ((data.drop (offset + 2 + sub_offset)).take (len0 - 1))
          match apply_sub st sp with
          | .error e => .error e
          | .ok st1 =>
            parse_subpackets_loop data endPos hashed fuel (offset + 1 + sub_offset + len0) st1
    else .ok st

/-- The expiration computation at the end of parse_subpackets: Python tests
the raw value for truthiness, so a recorded 0 is skipped; adding a timedelta
to a None creation time raises a TypeError. -/
def sig_expiration_update (st : SigFields) : Except PErr SigFields :=
  match st.raw_expiration_time with
  | none => .ok st
  | some v =>
    if v = 0 then .ok st
    else
      match st.creation_time with
      | none => .error .typeError
      | some c => .ok { st with expiration_time := some (c + v) }

/-- SignaturePacket.parse_subpackets: scan one region, then recompute the
expiration time. -/
def parse_subpackets (data : List Nat) (outer_offset outer_length : Nat) (hashed : Bool)
    (st : SigFields) : Except PErr SigFields :=
  match parse_subpackets_loop data (outer_offset + outer_length) hashed
      (outer_length + 1) outer_offset st with
  | .error e => .error e
  | .ok st1 => sig_expiration_update st1

/-- The v3 branch of SignaturePacket.parse: fixed offsets after the
hash-material byte, which must equal 5. -/
def sig_v3_fields (st0 : SigFields) (data : List Nat) : Except PErr SigFields :=
  match data[1]? with
  | none => .error .indexError
  | some b1 =>
    if b1 ≠ 5 then .error .malformed
    else
      match data[2]?, get_int4 data 3, get_key_id data 7, data[15]?, data[16]? with
      | some t, some ct, some kid, some pa, some ha =>
        .ok { st0 with
            raw_sig_type := some t, raw_creation_time := some ct,
            creation_time := some ct, key_id := some kid,
            raw_pub_algorithm := some pa, raw_hash_algorithm := some ha,
            hash2 := some ((data.drop 17).take 2) }
      | _, _, _, _, _ => .error .indexError

/-- The v4 branch of SignaturePacket.parse: three algorithm bytes, the
length-prefixed hashed then unhashed subpacket regions, then the 2-byte
hash prefix. -/
def sig_v4_fields (st0 : SigFields) (data : List Nat) : Except PErr SigFields :=
  match data[1]? with
  | none => .error .indexError
  | some t =>
    match data[2]? with
    | none => .error .indexError
    | some pa =>
      match data[3]? with
      | none => .error .indexError
      | some ha =>
        match get_int2 data 4 with
        | none => .error .indexError
        | some hlen =>
          match parse_subpackets data 6 hlen true
              { st0 with
                raw_sig_type := some t, raw_pub_algorithm := some pa,
                raw_hash_algorithm := some ha } with
          | .error e => .error e
          | .ok st1 =>
            match get_int2 data (6 + hlen) with
            | none => .error .indexError
            | some ulen =>
              match parse_subpackets data (6 + hlen + 2) ulen false st1 with
              | .error e => .error e
              | .ok st2 =>
                .ok { st2 with hash2 := some ((data.drop (6 + hlen + 2 + ulen)).take 2) }

/-- SignaturePacket.parse: dispatch on the version byte; versions other than
3 and 4 leave every field unset. -/
def signature_parse (data : List Nat) : Except PErr SigFields :=
  match data[0]? with
  | none => .error .indexError
  | some v =>
    let st0 := { SigFields.init with sig_version := some v }
    if v = 3 then sig_v3_fields st0 data
    else if v = 4 then sig_v4_fields st0 data
    else .ok st0

/- Public-key packets (class PublicKeyPacket, reused by PublicSubkeyPacket). -/

/-- The mutable fields of PublicKeyPacket, all unset by __init__.  The
fingerprint and key id are the uppercase hexadecimal character strings the
code stores. -/
structure PubKeyFields where
  pubkey_version : Option Nat
  fingerprint : Option (List Char)
  key_id : Option (List Char)
  raw_creation_time : Option Nat
  creation_time : Option Nat
  raw_pub_algorithm : Option Nat
  pub_algorithm_type : Option String
  modulus : Option Nat
  exponent : Option Nat
  prime : Option Nat
  group_order : Option Nat
  group_gen : Option Nat
  key_value : Option Nat
deriving DecidableEq, Repr

/-- The all-unset state PublicKeyPacket.__init__ leaves before parse runs. -/
def PubKeyFields.init : PubKeyFields :=
  ⟨none, none, none, none, none, none, none, none, none, none, none, none, none⟩

/-- The algorithm-specific MPI reads of PublicKeyPacket.parse, starting at
the given offset. -/
def publickey_algo_fields (base : PubKeyFields) (data : List Nat) (alg off : Nat) :
    Except PErr PubKeyFields :=
  if alg = 1 ∨ alg = 2 ∨ alg = 3 then
    match get_mpi data off with
    | none => .error .indexError
    | some (n, o1) =>
      match get_mpi data o1 with
      | none => .error .indexError
      | some (e, _) =>
        .ok { base with
            pub_algorithm_type := some "rsa", modulus := some n, exponent := some e }
  else if alg = 17 then
    match get_mpi data off with
    | none => .error .indexError
    | some (p, o1) =>
      match get_mpi data o1 with
      | none => .error .indexError
      | some (q, o2) =>
        match get_mpi data o2 with
        | none => .error .indexError
        | some (g, o3) =>
          match get_mpi data o3 with
          | none => .error .indexError
          | some (y, _) =>
            .ok { base with
                pub_algorithm_type := some "dsa", prime := some p,
                group_order := some q, group_gen := some g, key_value := some y }
  else if alg = 16 then
    match get_mpi data off with
    | none => .error .indexError
    | some (p, o1) =>
      match get_mpi data o1 with
      | none => .error .indexError
      | some (g, o2) =>
        match get_mpi data o2 with
        | none => .error .indexError
        | some (y, _) =>
          .ok { base with
              pub_algorithm_type := some "elgamal", prime := some p,
              group_gen := some g, key_value := some y }
  else .ok base

/-- PublicKeyPacket.parse: only version 4 is parsed further.  The v4 branch
hashes the synthetic 3-byte header followed by the full body, stores the
40-character uppercase hex fingerprint and its last 16 characters as the key
id, then reads the creation time, the algorithm byte and the MPI fields. -/
def publickey_parse (data : List Nat) : Except PErr PubKeyFields :=
  match data[0]? with
  | none => .error .indexError
  | some v =>
    if v = 4 then
      let fp := sha1_hex_upper (153 :: ((data.length >>> 8) &&& 255) ::
        (data.length &&& 255) :: data)
      match get_int4 data 1, data[5]? with
      | some ct, some alg =>
        publickey_algo_fields
          { PubKeyFields.init with
            pubkey_version := some 4, fingerprint := some fp,
            key_id := some (fp.drop 24), raw_creation_time := some ct,
            creation_time := some ct, raw_pub_algorithm := some alg }
          data alg 6
      | _, _ => .error .indexError
    else .ok { PubKeyFields.init with pubkey_version := some v }

/- User-ID packets (class UserIDPacket). -/

/-- The mutable fields of UserIDPacket. -/
structure UserIDFields where
  user : Option String
  user_name : Option String
  user_email : Option String
deriving DecidableEq, Repr

/-- Strict UTF-8 decoding as the Python utf8 codec performs it: rejects
continuation bytes as starts, overlong encodings, surrogates, values past
U+10FFFF and truncated sequences. -/
def utf8_decode : List Nat → Option (List Char)
  | [] => some []
  | b :: rest =>
    if b < 128 then
      (utf8_decode rest).map (Char.ofNat b :: ·)
    else if b < 194 then none
    else if b < 224 then
      match rest with
      | b1 :: r =>
        if 128 ≤ b1 ∧ b1 < 192 then
          (utf8_decode r).map (Char.ofNat ((b - 192) * 64 + (b1 - 128)) :: ·)
        else none
      | [] => none
    else if b < 240 then
      match rest with
      | b1 :: b2 :: r =>
        let cp := (b - 224) * 4096 + (b1 - 128) * 64 + (b2 - 128)
        if 128 ≤ b1 ∧ b1 < 192 ∧ 128 ≤ b2 ∧ b2 < 192 ∧ 2048 ≤ cp ∧
            ¬ (55296 ≤ cp ∧ cp < 57344) then
          (utf8_decode r).map (Char.ofNat cp :: ·)
        else none
      | _ => none
    else if b < 245 then
      match rest with
      | b1 :: b2 :: b3 :: r =>
        let cp := (b - 240) * 262144 + (b1 - 128) * 4096 + (b2 - 128) * 64 + (b3 - 128)
        if 128 ≤ b1 ∧ b1 < 192 ∧ 128 ≤ b2 ∧ b2 < 192 ∧ 128 ≤ b3 ∧ b3 < 192 ∧
            65536 ≤ cp ∧ cp < 1114112 then
          (utf8_decode r).map (Char.ofNat cp :: ·)
        else none
      | _ => none
    else none

/-- Python str.strip whitespace set, restricted to the ASCII whitespace
characters (the inputs at issue are ASCII). -/
def py_isspace (c : Char) : Bool :=
  c = ' ' ∨ c = '\t' ∨ c = '\n' ∨ c = '\r' ∨ c = '\x0b' ∨ c = '\x0c'

/-- Python str.strip: drop leading and trailing whitespace. -/
def pystrip (s : List Char) : List Char :=
  ((s.dropWhile py_isspace).reverse.dropWhile py_isspace).reverse

/-- The deterministic semantics of re.match over the pattern
optional-name-then-angle-bracketed-email used by UserIDPacket.parse.  The
name group greedily takes every character before the first literal angle
bracket (it is None when that prefix is empty), the optional space and the
bracket consume nothing extra, and the email group takes the following
characters up to a closing bracket or the end; with no opening bracket the
pattern fails to match. -/
def userid_match (s : List Char) : Option (Option (List Char) × List Char) :=
  let pre := s.takeWhile (· ≠ '<')
  match s.dropWhile (· ≠ '<') with
  | [] => none
  | _ :: rest =>
    some (if pre = [] then none else some pre, rest.takeWhile (· ≠ '>'))

/-- UserIDPacket.parse: decode the body as UTF-8, apply the pattern, and
strip both groups.  A match with an absent name group reaches
None.strip() and raises an AttributeError. -/
def userid_parse (data : List Nat) : Except PErr UserIDFields :=
  match utf8_decode data with
  | none => .error .unicodeDecodeError
  | some chars =>
    match userid_match chars with
    | none => .ok ⟨some chars.asString, none, none⟩
    | some (none, _) => .error .attributeError
    | some (some g1, g2) =>
      .ok ⟨some chars.asString, some (pystrip g1).asString, some (pystrip g2).asString⟩

/- User-attribute packets (class UserAttributePacket). -/

/-- The mutable fields of UserAttributePacket. -/
structure UserAttrFields where
  raw_image_format : Option Nat
  image_format : Option String
  image_data : Option (List Nat)
deriving DecidableEq, Repr

/-- The while loop of UserAttributePacket.parse.  len0 carries the previous
new-style subpacket length, so the Python condition
offset + (len0 - 1) < len(data) over integers is offset + len0 < len + 1
over naturals; len0 starts at 1 because Python starts sub_len at 0.  The
fuel only bounds the recursion: every iteration advances offset by at least
2 while the condition keeps offset at most len(data), so the
initial fuel data.length + 1 is never exhausted. -/
def userattr_loop (data : List Nat) :
    Nat → Nat → Nat → UserAttrFields → Except PErr UserAttrFields
  | 0, _, _, st => .ok st
  | fuel + 1, offset, len0, st =>
    if offset + len0 < data.length + 1 then
      match new_tag_length data offset with
      | none => .error .indexError
      | some (so, l0, _) =>
        match data[offset + 1 + so]? with
        | none => .error .indexError
        | some stype =>
          let o2 := offset + 2 + so
          if stype = 1 then
            match data[o2]?, data[o2 + 1]?, data[o2 + 2]?, data[o2 + 3]? with
            | some h0, some h1, some _, some fmt =>
              let o3 := o2 + (h0 + (h1 <<< 8))
              userattr_loop data fuel o3 l0
                ⟨some fmt, some (if fmt = 1 then "jpeg" else "unknown"),
                 some (data.drop o3)⟩
            | _, _, _, _ => .error .indexError
          else userattr_loop data fuel o2 l0 st
    else .ok st

/-- UserAttributePacket.parse. -/
def userattr_parse (data : List Nat) : Except PErr UserAttrFields :=
  userattr_loop data (data.length + 1) 0 1 ⟨none, none, none⟩

/-- TrustPacket.parse: a 2-byte body yields a big-endian trust value, any
other length leaves it unset. -/
def trust_parse (data : List Nat) : Option Nat :=
  if data.length = 2 then
    match get_int2 data 0 with
    | some v => some v
    | none => none
  else none

/- The packet dispatcher (construct_packet and TAG_TYPES). -/

/-- The tag-specific payload of a decoded packet; generic covers tags with no
registered decoder. -/
inductive PacketVariant where
  | generic
  | signature (f : SigFields)
  | publicKey (f : PubKeyFields)
  | publicSubkey (f : PubKeyFields)
  | userID (f : UserIDFields)
  | userAttribute (f : UserAttrFields)
  | trust (t : Option Nat)
deriving DecidableEq, Repr

/-- The decoded packet: header fields from Packet.__init__ plus the
tag-specific payload. -/
structure Packet where
  raw : Nat
  name : String
  new : Bool
  length : Nat
  data : List Nat
  variant : PacketVariant
deriving DecidableEq, Repr

/-- The name column of TAG_TYPES, with the "Unknown" default. -/
def tag_name (tag : Nat) : String :=
  match tag with
  | 0 => "Reserved"
  | 1 => "Public-Key Encrypted Session Key Packet"
  | 2 => "Signature Packet"
  | 3 => "Symmetric-Key Encrypted Session Key Packet"
  | 4 => "One-Pass Signature Packet"
  | 5 => "Secret Key Packet"
  | 6 => "Public Key Packet"
  | 7 => "Secret Subkey Packet"
  | 8 => "Compressed Data Packet"
  | 9 => "Symmetrically Encrypted Data Packet"
  | 10 => "Marker Packet"
  | 11 => "Literal Data Packet"
  | 12 => "Trust Packet"
  | 13 => "User ID Packet"
  | 14 => "Public Subkey Packet"
  | 17 => "User Attribute Packet"
  | 18 => "Symmetrically Encrypted and MDC Packet"
  | 19 => "Modification Detection Code Packet"
  | 60 => "Private"
  | 61 => "Private"
  | 62 => "Private"
  | 63 => "Private"
  | _ => "Unknown"

/-- The decoder column of TAG_TYPES: the tags with a registered packet
class, mapped to their parse routines. -/
def tag_decoder (tag : Nat) : Option (List Nat → Except PErr PacketVariant) :=
  match tag with
  | 2 => some fun d => (signature_parse d).map .signature
  | 6 => some fun d => (publickey_parse d).map .publicKey
  | 12 => some fun d => .ok (.trust (trust_parse d))
  | 13 => some fun d => (userid_parse d).map .userID
  | 14 => some fun d => (publickey_parse d).map .publicSubkey
  | 17 => some fun d => (userattr_parse d).map .userAttribute
  | _ => none

/-- PacketType(tag, name, new, data): Packet.__init__ records the body and
its length, then the subclass parse runs. -/
def mk_packet (tag : Nat) (new : Bool) (body : List Nat) : Except PErr Packet :=
  match tag_decoder tag with
  | none => .ok ⟨tag, tag_name tag, new, body.length, body, .generic⟩
  | some f => (f body).map fun v => ⟨tag, tag_name tag, new, body.length, body, v⟩

/-- The header phase of construct_packet: the tag number, the total header
size including the tag byte, the declared body length and the framing flag. -/
def header_info (data : List Nat) (start : Nat) : Option (Nat × Nat × Nat × Bool) :=
  match data[start]? with
  | none => none
  | some b =>
    let tag0 := b &&& 63
    if b &&& 64 ≠ 0 then
      match new_tag_length data (start + 1) with
      | none => none
      | some (o, len, _) => some (tag0, o + 2, len, true)
    else
      match old_tag_length data start with
      | none => none
      | some (o, len) => some (tag0 >>> 2, o + 1, len, false)

/-- construct_packet from packet.py: decode the header, slice the body with
Python slicing (clipped to the buffer bounds), build the packet via the tag
table, and report header size plus declared body length as consumed. -/
def construct_packet (data : List Nat) (start : Nat) : Except PErr (Nat × Packet) :=
  match header_info data start with
  | none => .error .indexError
  | some (tag, dofs, len, new) =>
    let body := (data.drop (start + dofs)).take len
    (mk_packet tag new body).map fun p => (dofs + len, p)

/- Derived views of the subpacket scan, used to state last-one-wins. -/

/-- The last subpacket of a given subtype in scan order. -/
def last_field (L : List SignatureSubpacket) (t : Nat) : Option SignatureSubpacket :=
  (L.filter fun sp => sp.subtype = t).getLast?

/- Concrete buffers and decoded results used by the witness theorems. -/

/-- A v3 signature packet body with hash-material byte 5. -/
def c5_d : List Nat := [3, 5, 0, 0, 0, 0, 50, 1, 2, 3, 4, 5, 6, 7, 8, 1, 2, 9, 9]

/-- The decoded fields of c5_d. -/
def c5_R : SigFields :=
  ⟨some 3, some 0, some 1, some 2, some 50, some 50, none, none,
   some [1, 2, 3, 4, 5, 6, 7, 8], some [9, 9], []⟩

/-- A v4 signature packet body with two creation-time subpackets and an
issuer subpacket in the hashed region. -/
def c4_d : List Nat :=
  [4, 0, 1, 8, 0, 22, 5, 2, 0, 0, 0, 10, 5, 2, 0, 0, 0, 20,
   9, 16, 1, 2, 3, 4, 5, 6, 7, 8, 0, 0, 0, 0]

/-- The decoded fields of c4_d. -/
def c4_R : SigFields :=
  ⟨some 4, some 0, some 1, some 8, some 20, some 20, none, none,
   some [1, 2, 3, 4, 5, 6, 7, 8], some [0, 0],
   [⟨2, 2, true, false, 4, [0, 0, 0, 10]⟩,
    ⟨2, 2, true, false, 4, [0, 0, 0, 20]⟩,
    ⟨16, 16, true, false, 8, [1, 2, 3, 4, 5, 6, 7, 8]⟩]⟩

/-- A v4 signature packet body whose expiration subpacket carries value 0. -/
def c9c_d : List Nat :=
  [4, 0, 1, 8, 0, 12, 5, 2, 0, 0, 0, 100, 5, 3, 0, 0, 0, 0, 0, 0, 0, 0]

/-- The decoded fields of c9c_d. -/
def c9c_R : SigFields :=
  ⟨some 4, some 0, some 1, some 8, some 100, some 100, some 0, none, none, some [0, 0],
   [⟨2, 2, true, false, 4, [0, 0, 0, 100]⟩, ⟨3, 3, true, false, 4, [0, 0, 0, 0]⟩]⟩

/-- A v4 signature packet body whose expiration subpacket carries value 50. -/
def c9w_d : List Nat :=
  [4, 0, 1, 8, 0, 12, 5, 2, 0, 0, 0, 100, 5, 3, 0, 0, 0, 50, 0, 0, 0, 0]

/-- The decoded fields of c9w_d. -/
def c9w_R : SigFields :=
  ⟨some 4, some 0, some 1, some 8, some 100, some 100, some 50, some 150, none, some [0, 0],
   [⟨2, 2, true, false, 4, [0, 0, 0, 100]⟩, ⟨3, 3, true, false, 4, [0, 0, 0, 50]⟩]⟩

/-- A tiny v4 RSA public-key packet body. -/
def c3_d : List Nat := [4, 0, 0, 0, 0, 1, 0, 1, 1, 0, 1, 1]

/-- The decoded fields of c3_d. -/
def c3_R : PubKeyFields :=
  ⟨some 4, some "1E99ABC0C202AC39929AAB7C7EDF2976B0B15F30".toList,
   some "7EDF2976B0B15F30".toList, some 0, some 0, some 1, some "rsa",
   some 1, some 1, none, none, none, none⟩

/-- The bytes of the user-id text with an absent name group. -/
def c8_d : List Nat :=
  [60, 97, 108, 105, 99, 101, 64, 101, 120, 97, 109, 112, 108, 101, 46, 99, 111, 109, 62]

/- Theorems. -/

/-- C1: new_tag_length follows the four-band table of the spec: a first byte
below 192 is the length itself with no extra header bytes; 192 up to 223
takes one more byte with value ((b-192)<<8)+next+192; 255 takes the next
four bytes as a big-endian u32; 224 up to 254 is a partial length of
1 <<< (b &&& 31) with no extra bytes. -/
theorem new_tag_length_bands (data : List Nat) (p b : Nat) (hb : data[p]? = some b) :
    (b < 192 → new_tag_length data p = some (0, b, false)) ∧
    (192 ≤ b → b < 224 → ∀ x, data[p + 1]? = some x →
      new_tag_length data p = some (1, ((b - 192) <<< 8) + x + 192, false)) ∧
    (b = 255 → ∀ x0 x1 x2 x3, data[p + 1]? = some x0 → data[p + 2]? = some x1 →
      data[p + 3]? = some x2 → data[p + 4]? = some x3 →
      new_tag_length data p = some (4, ((x0 * 256 + x1) * 256 + x2) * 256 + x3, false)) ∧
    (224 ≤ b → b < 255 → new_tag_length data p = some (0, 1 <<< (b &&& 31), true)) := by
  refine ⟨?_, ?_, ?_, ?_⟩
  · intro h
    simp [new_tag_length, hb, h]
  · intro h1 h2 x hx
    have hn : ¬ b < 192 := by omega
    simp [new_tag_length, hb, hn, h2, hx]
  · intro h x0 x1 x2 x3 hx0 hx1 hx2 hx3
    subst h
    have e1 : p + 1 + 1 = p + 2 := by omega
    have e2 : p + 1 + 2 = p + 3 := by omega
    have e3 : p + 1 + 3 = p + 4 := by omega
    simp [new_tag_length, hb, get_int4, e1, e2, e3, hx0, hx1, hx2, hx3]
  · intro h1 h2
    have hn1 : ¬ b < 192 := by omega
    have hn2 : ¬ b < 224 := by omega
    have hn3 : b ≠ 255 := by omega
    simp [new_tag_length, hb, hn1, hn2, hn3]

/-- Witness for C1 at the two-byte buffer [200, 7], which lands in the
second band. -/
theorem new_tag_length_bands_witness :
    new_tag_length [200, 7] 0 = some (1, 2247, false) :=
  (new_tag_length_bands [200, 7] 0 200 (by decide)).2.1 (by decide) (by decide) 7 (by decide)

/-- C6: old_tag_length follows the spec table: length types 0, 1, 2 consume
1, 2, 4 extra bytes read big-endian, and length type 3 consumes none and
yields the remaining buffer length len(data) - start - 1. -/
theorem old_tag_length_bands (data : List Nat) (start b : Nat) (hb : data[start]? = some b) :
    (b &&& 3 = 0 → ∀ x, data[start + 1]? = some x → old_tag_length data start = some (1, x)) ∧
    (b &&& 3 = 1 → ∀ x0 x1, data[start + 1]? = some x0 → data[start + 2]? = some x1 →
      old_tag_length data start = some (2, x0 * 256 + x1)) ∧
    (b &&& 3 = 2 → ∀ x0 x1 x2 x3, data[start + 1]? = some x0 → data[start + 2]? = some x1 →
      data[start + 3]? = some x2 → data[start + 4]? = some x3 →
      old_tag_length data start = some (4, ((x0 * 256 + x1) * 256 + x2) * 256 + x3)) ∧
    (b &&& 3 = 3 → old_tag_length data start = some (0, data.length - start - 1)) := by
  refine ⟨?_, ?_, ?_, ?_⟩
  · intro h x hx
    simp [old_tag_length, hb, h, hx]
  · intro h x0 x1 hx0 hx1
    have e1 : start + 1 + 1 = start + 2 := by omega
    simp [old_tag_length, hb, h, get_int2, e1, hx0, hx1]
  · intro h x0 x1 x2 x3 hx0 hx1 hx2 hx3
    have e1 : start + 1 + 1 = start + 2 := by omega
    have e2 : start + 1 + 2 = start + 3 := by omega
    have e3 : start + 1 + 3 = start + 4 := by omega
    simp [old_tag_length, hb, h, get_int4, e1, e2, e3, hx0, hx1, hx2, hx3]
  · intro h
    simp [old_tag_length, hb, h]

/-- Witness for C6 on a buffer whose tag byte has length type 3. -/
theorem old_tag_length_bands_witness :
    old_tag_length [131, 9, 9] 0 = some (0, 2) :=
  (old_tag_length_bands [131, 9, 9] 0 131 (by decide)).2.2.2 (by decide)

/-- C5: a v3 signature body whose second byte differs from 5 fails with the
malformed-packet error; with second byte 5 the decoder reads sig type,
creation time, key id, public-key algorithm, hash algorithm and the 2-byte
hash tail from the fixed offsets 2, 3, 7, 15, 16 and 17. -/
theorem sig_v3_layout (data : List Nat) (h0 : data[0]? = some 3) :
    (∀ b1, data[1]? = some b1 → b1 ≠ 5 → signature_parse data = .error .malformed) ∧
    (data[1]? = some 5 → ∀ r, signature_parse data = .ok r →
      r.sig_version = some 3 ∧ r.raw_sig_type = data[2]? ∧
      r.raw_creation_time = get_int4 data 3 ∧ r.creation_time = get_int4 data 3 ∧
      r.key_id = get_key_id data 7 ∧ r.raw_pub_algorithm = data[15]? ∧
      r.raw_hash_algorithm = data[16]? ∧ r.hash2 = some ((data.drop 17).take 2)) := by
  constructor
  · intro b1 hb1 hne
    simp [signature_parse, h0, sig_v3_fields, hb1, hne]
  · intro h5 r hr
    simp only [signature_parse, h0, if_true] at hr
    simp only [sig_v3_fields, h5] at hr
    rw [if_neg (by simp)] at hr
    cases h2 : data[2]? with
    | none => rw [h2] at hr; simp at hr
    | some t =>
      rw [h2] at hr
      cases h3 : get_int4 data 3 with
      | none => rw [h3] at hr; simp at hr
      | some ct =>
        rw [h3] at hr
        cases h7 : get_key_id data 7 with
        | none => rw [h7] at hr; simp at hr
        | some kid =>
          rw [h7] at hr
          cases h15 : data[15]? with
          | none => rw [h15] at hr; simp at hr
          | some pa =>
            rw [h15] at hr
            cases h16 : data[16]? with
            | none => rw [h16] at hr; simp at hr
            | some ha =>
              rw [h16] at hr
              simp only [Except.ok.injEq] at hr
              subst hr
              simp

/-- Witness for C5 on a 19-byte v3 signature body. -/
theorem sig_v3_layout_witness :
    c5_R.sig_version = some 3 ∧ c5_R.raw_sig_type = c5_d[2]? ∧
    c5_R.raw_creation_time = get_int4 c5_d 3 ∧ c5_R.creation_time = get_int4 c5_d 3 ∧
    c5_R.key_id = get_key_id c5_d 7 ∧ c5_R.raw_pub_algorithm = c5_d[15]? ∧
    c5_R.raw_hash_algorithm = c5_d[16]? ∧ c5_R.hash2 = some ((c5_d.drop 17).take 2) :=
  (sig_v3_layout c5_d (by decide)).2 (by decide) c5_R (by decide)

/-- Header fields of any packet mk_packet builds successfully. -/
theorem mk_packet_fields (tag : Nat) (nw : Bool) (body : List Nat) (q : Packet)
    (h : mk_packet tag nw body = .ok q) :
    q.raw = tag ∧ q.name = tag_name tag ∧ q.new = nw ∧
    q.length = body.length ∧ q.data = body := by
  unfold mk_packet at h
  cases hd : tag_decoder tag with
  | none =>
    simp only [hd, Except.ok.injEq] at h
    subst h
    simp
  | some f =>
    simp only [hd] at h
    cases hf : f body with
    | error e =>
      simp only [hf, Except.map] at h
      exact Except.noConfusion h
    | ok v =>
      simp only [hf, Except.map, Except.ok.injEq] at h
      subst h
      simp

/-- Success cases of construct_packet, decomposed into the header info and
the packet construction on the clipped body slice. -/
theorem construct_packet_ok (data : List Nat) (start c : Nat) (p : Packet)
    (h : construct_packet data start = .ok (c, p)) :
    ∃ tag dofs len nw, header_info data start = some (tag, dofs, len, nw) ∧
      c = dofs + len ∧
      mk_packet tag nw ((data.drop (start + dofs)).take len) = .ok p := by
  unfold construct_packet at h
  cases hh : header_info data start with
  | none =>
    simp only [hh] at h
    exact Except.noConfusion h
  | some v =>
    obtain ⟨tag, dofs, len, nw⟩ := v
    simp only [hh] at h
    cases hm : mk_packet tag nw ((data.drop (start + dofs)).take len) with
    | error e =>
      simp only [hm, Except.map] at h
      exact Except.noConfusion h
    | ok q =>
      simp only [hm, Except.map, Except.ok.injEq, Prod.mk.injEq] at h
      obtain ⟨hc, hp⟩ := h
      exact ⟨tag, dofs, len, nw, rfl, hc.symm, hp ▸ hm⟩

/-- C10: every packet construct_packet returns stores a length equal to the
actual byte count of its body slice, clipping included. -/
theorem packet_length_eq_data_length (data : List Nat) (start c : Nat) (p : Packet)
    (h : construct_packet data start = .ok (c, p)) : p.length = p.data.length := by
  obtain ⟨tag, dofs, len, nw, -, -, hm⟩ := construct_packet_ok data start c p h
  obtain ⟨-, -, -, hl, hd⟩ := mk_packet_fields _ _ _ _ hm
  rw [hl, hd]

/-- Witness for C10 on a buffer whose declared body length 5 exceeds the
zero remaining bytes, so the body is clipped to empty. -/
theorem packet_length_eq_data_length_witness :
    (⟨0, "Reserved", false, 0, [], .generic⟩ : Packet).length =
      (⟨0, "Reserved", false, 0, [], .generic⟩ : Packet).data.length :=
  packet_length_eq_data_length [128, 5] 0 7 ⟨0, "Reserved", false, 0, [], .generic⟩ (by decide)

/-- C7: a tag with no registered decoder yields a generic packet with the
table name, the framing flag, the clipped body and no parsed payload, and
the consumed count is the full header size plus the declared body length. -/
theorem construct_packet_unknown_tag (data : List Nat) (start tag dofs len : Nat) (nw : Bool)
    (hh : header_info data start = some (tag, dofs, len, nw))
    (hd : tag_decoder tag = none) :
    construct_packet data start =
      .ok (dofs + len,
        ⟨tag, tag_name tag, nw, ((data.drop (start + dofs)).take len).length,
         (data.drop (start + dofs)).take len, .generic⟩) := by
  simp only [construct_packet, hh, mk_packet, hd, Except.map]

/-- Witness for C7: tag 16 has no decoder, so a new-style packet with that
tag decodes to a generic packet and consumed count 4. -/
theorem construct_packet_unknown_tag_witness :
    construct_packet [208, 2, 9, 9] 0 =
      .ok (4, ⟨16, "Unknown", true, 2, [9, 9], .generic⟩) :=
  construct_packet_unknown_tag [208, 2, 9, 9] 0 16 2 2 true (by decide) rfl

/-- C2 counterexample: a packet header declaring body length 5 with no
remaining bytes decodes successfully with an empty clipped body instead of
failing with a truncation error. -/
theorem construct_packet_truncation_cex :
    header_info [128, 5] 0 = some (0, 2, 5, false) ∧
    List.length [128, 5] < 0 + 2 + 5 ∧
    construct_packet [128, 5] 0 = .ok (7, ⟨0, "Reserved", false, 0, [], .generic⟩) :=
  ⟨by decide, by decide, by decide⟩

/-- C2 amended: when the declared body length exceeds the remaining buffer
bytes, construct_packet raises no truncation error; any packet it returns
has its body silently clipped to exactly the remaining bytes, with the
stored length tracking the clipped slice while the consumed count still
uses the declared length. -/
theorem construct_packet_clips_body (data : List Nat) (start tag dofs len c : Nat)
    (nw : Bool) (p : Packet)
    (hh : header_info data start = some (tag, dofs, len, nw))
    (hlen : data.length < start + dofs + len)
    (h : construct_packet data start = .ok (c, p)) :
    p.data = data.drop (start + dofs) ∧ p.data.length = data.length - (start + dofs) ∧
    p.length = p.data.length ∧ c = dofs + len := by
  obtain ⟨tag2, dofs2, len2, nw2, hh2, hc, hm⟩ := construct_packet_ok data start c p h
  rw [hh] at hh2
  have hinj := Option.some.inj hh2
  simp only [Prod.mk.injEq] at hinj
  obtain ⟨rfl, rfl, rfl, rfl⟩ := hinj
  obtain ⟨-, -, -, hl, hdata⟩ := mk_packet_fields _ _ _ _ hm
  have htake : (data.drop (start + dofs)).take len = data.drop (start + dofs) := by
    apply List.take_of_length_le
    rw [List.length_drop]
    omega
  refine ⟨by rw [hdata, htake], ?_, by rw [hl, hdata], hc⟩
  rw [hdata, htake, List.length_drop]

/-- Witness for C2: the amended statement applied at the truncated buffer. -/
theorem construct_packet_clips_body_witness :
    (⟨0, "Reserved", false, 0, [], .generic⟩ : Packet).data = List.drop 2 [128, 5] ∧
    (⟨0, "Reserved", false, 0, [], .generic⟩ : Packet).data.length =
      List.length [128, 5] - (0 + 2) ∧
    (⟨0, "Reserved", false, 0, [], .generic⟩ : Packet).length =
      (⟨0, "Reserved", false, 0, [], .generic⟩ : Packet).data.length ∧
    7 = 2 + 5 :=
  construct_packet_clips_body [128, 5] 0 0 2 5 7 false
    ⟨0, "Reserved", false, 0, [], .generic⟩ (by decide) (by decide) (by decide)

/-- C8: the code raises an AttributeError on a user-id body whose pattern
match succeeds with an absent name group, because None.strip() is invalid;
the body is valid UTF-8 and the spec expects parsing not to fail. -/
theorem userid_missing_name_attribute_error :
    utf8_decode c8_d = some "<alice@example.com>".toList ∧
    userid_match "<alice@example.com>".toList =
      some (none, "alice@example.com".toList) ∧
    userid_parse c8_d = .error .attributeError :=
  ⟨by decide, by decide, by decide⟩

/-- Every byte of a word rendering is below 256. -/
theorem word_bytes_bound (w : Nat) : ∀ b ∈ word_bytes w, b < 256 := by
  intro b hb
  simp only [word_bytes, List.mem_cons, List.not_mem_nil, or_false] at hb
  rcases hb with rfl | rfl | rfl | rfl <;> exact Nat.mod_lt _ (by decide)

/-- Every byte of a SHA-1 digest is below 256. -/
theorem sha1_bytes_bound (msg : List Nat) : ∀ b ∈ sha1_bytes msg, b < 256 := by
  intro b hb
  simp only [sha1_bytes, List.mem_append] at hb
  rcases hb with ((((h | h) | h) | h) | h) <;> exact word_bytes_bound _ b h

/-- A SHA-1 digest has 20 bytes. -/
theorem sha1_bytes_length (msg : List Nat) : (sha1_bytes msg).length = 20 := by
  simp [sha1_bytes, word_bytes]

/-- The byte-to-hex fold doubles the list length. -/
theorem foldr_hex_length (bs : List Nat) :
    (bs.foldr (fun b acc => hex_upper_digit (b / 16) :: hex_upper_digit (b % 16) :: acc)
      []).length = 2 * bs.length := by
  induction bs with
  | nil => rfl
  | cons b bs ih => simp [ih]; omega

/-- The rendered fingerprint has 40 characters. -/
theorem sha1_hex_upper_length (msg : List Nat) : (sha1_hex_upper msg).length = 40 := by
  rw [sha1_hex_upper, foldr_hex_length, sha1_bytes_length]

/-- Digits below 16 render inside the uppercase hexadecimal alphabet. -/
theorem hex_upper_digit_mem (n : Nat) (h : n < 16) :
    hex_upper_digit n ∈ "0123456789ABCDEF".toList := by
  have hall : ∀ m, m < 16 → hex_upper_digit m ∈ "0123456789ABCDEF".toList := by decide
  exact hall n h

/-- Every character of the rendered fingerprint is an uppercase hex digit. -/
theorem sha1_hex_upper_charset (msg : List Nat) :
    ∀ c ∈ sha1_hex_upper msg, c ∈ "0123456789ABCDEF".toList := by
  have hb := sha1_bytes_bound msg
  rw [sha1_hex_upper]
  generalize sha1_bytes msg = bs at hb ⊢
  revert hb
  induction bs with
  | nil =>
    intro _ c hc
    simp at hc
  | cons b bs ih =>
    intro hb c hc
    simp only [List.foldr_cons, List.mem_cons] at hc
    rcases hc with rfl | rfl | hc
    · exact hex_upper_digit_mem _ (by have := hb b (by simp); omega)
    · exact hex_upper_digit_mem _ (by omega)
    · exact ih (fun x hx => hb x (by simp [hx])) c hc

/-- publickey_algo_fields only fills the algorithm family and MPI fields;
the version, fingerprint, key id and times pass through from its input. -/
theorem publickey_algo_preserves (base : PubKeyFields) (data : List Nat) (alg off : Nat)
    (r : PubKeyFields) (h : publickey_algo_fields base data alg off = .ok r) :
    r.pubkey_version = base.pubkey_version ∧ r.fingerprint = base.fingerprint ∧
    r.key_id = base.key_id ∧ r.raw_creation_time = base.raw_creation_time ∧
    r.creation_time = base.creation_time ∧ r.raw_pub_algorithm = base.raw_pub_algorithm := by
  unfold publickey_algo_fields at h
  repeat' split at h
  all_goals
    first
    | exact Except.noConfusion h
    | · simp only [Except.ok.injEq] at h
        subst h
        simp

/-- C3: for a version-4 public-key or public-subkey body the decoder sets
the fingerprint to the SHA-1 of the synthetic header 0x99 and the two
big-endian body-length bytes followed by the whole body, rendered as 40
uppercase hexadecimal characters, with the key id its last 16 characters;
any other version leaves both unset. -/
theorem publickey_v4_fingerprint (data : List Nat) (r : PubKeyFields)
    (h : publickey_parse data = .ok r) :
    (data[0]? = some 4 →
      r.fingerprint = some (sha1_hex_upper (153 :: ((data.length >>> 8) &&& 255) ::
        (data.length &&& 255) :: data)) ∧
      (∃ fp, r.fingerprint = some fp ∧ fp.length = 40 ∧
        (∀ c ∈ fp, c ∈ "0123456789ABCDEF".toList) ∧ r.key_id = some (fp.drop 24))) ∧
    (∀ v, data[0]? = some v → v ≠ 4 → r.fingerprint = none ∧ r.key_id = none) := by
  unfold publickey_parse at h
  cases h0 : data[0]? with
  | none =>
    simp only [h0] at h
    exact Except.noConfusion h
  | some v =>
    simp only [h0] at h
    by_cases hv : v = 4
    · subst hv
      rw [if_pos rfl] at h
      constructor
      · intro _
        cases h1 : get_int4 data 1 with
        | none =>
          rw [h1] at h
          cases h5 : data[5]? <;> simp only [h5] at h <;> exact Except.noConfusion h
        | some ct =>
          rw [h1] at h
          cases h5 : data[5]? with
          | none =>
            simp only [h5] at h
            exact Except.noConfusion h
          | some alg =>
            simp only [h5] at h
            obtain ⟨-, hfp, hkid, -, -, -⟩ := publickey_algo_preserves _ _ _ _ _ h
            refine ⟨hfp, ⟨_, hfp, sha1_hex_upper_length _, sha1_hex_upper_charset _, hkid⟩⟩
      · intro w hw hne
        exact absurd (Option.some.inj hw).symm hne
    · rw [if_neg hv] at h
      simp only [Except.ok.injEq] at h
      subst h
      constructor
      · intro h4
        exact absurd (Option.some.inj h4) hv
      · intro w hw hne
        exact ⟨rfl, rfl⟩

set_option maxRecDepth 100000 in
/-- Witness for C3 on a tiny v4 RSA key body, checking the fingerprint and
key id against concrete hexadecimal strings. -/
theorem publickey_v4_fingerprint_witness :
    c3_R.fingerprint = some "1E99ABC0C202AC39929AAB7C7EDF2976B0B15F30".toList ∧
    c3_R.key_id = some "7EDF2976B0B15F30".toList := by
  have h := (publickey_v4_fingerprint c3_d c3_R (by decide)).1 (by decide)
  obtain ⟨h1, fp, hfp, -, -, hk⟩ := h
  rw [h1] at hfp
  have hfpv : fp = "1E99ABC0C202AC39929AAB7C7EDF2976B0B15F30".toList := by
    rw [← Option.some.inj hfp]
    decide
  constructor
  · rw [h1]
    decide
  · rw [hk, hfpv]
    decide

/-- Cons unfolding for the last subpacket of a subtype. -/
theorem last_field_cons (sp : SignatureSubpacket) (L : List SignatureSubpacket) (t : Nat) :
    last_field (sp :: L) t =
      (if sp.subtype = t then
        (match last_field L t with
         | some x => some x
         | none => some sp)
      else last_field L t) := by
  unfold last_field
  by_cases hp : sp.subtype = t
  · rw [if_pos hp, List.filter_cons_of_pos (by simp [hp])]
    cases hl : List.filter (fun x => decide (x.subtype = t)) L with
    | nil => simp
    | cons y ys =>
      rw [List.getLast?_cons_cons]
      cases hz : (y :: ys).getLast? with
      | none => exact absurd (List.getLast?_eq_none_iff.mp hz) (by simp)
      | some z => rfl
  · rw [if_neg hp, List.filter_cons_of_neg (by simp [hp])]

/-- Append unfolding for the last subpacket of a subtype. -/
theorem last_field_append (L1 L2 : List SignatureSubpacket) (t : Nat) :
    last_field (L1 ++ L2) t =
      (match last_field L2 t with
       | some x => some x
       | none => last_field L1 t) := by
  unfold last_field
  rw [List.filter_append]
  cases hf : List.filter (fun x => decide (x.subtype = t)) L2 with
  | nil => simp
  | cons y ys =>
    rw [List.getLast?_append_cons]
    cases hz : (y :: ys).getLast? with
    | none => exact absurd (List.getLast?_eq_none_iff.mp hz) (by simp)
    | some z => rfl

/-- Case analysis of one subpacket side-effect application. -/
theorem apply_sub_ok (st : SigFields) (sp : SignatureSubpacket) (st1 : SigFields)
    (h : apply_sub st sp = .ok st1) :
    st1.subpackets = st.subpackets ++ [sp] ∧
    st1.expiration_time = st.expiration_time ∧
    (sp.subtype = 2 → ∃ v, get_int4 sp.data 0 = some v ∧
      st1.raw_creation_time = some v ∧ st1.creation_time = some v ∧
      st1.raw_expiration_time = st.raw_expiration_time ∧ st1.key_id = st.key_id) ∧
    (sp.subtype = 3 → ∃ v, get_int4 sp.data 0 = some v ∧
      st1.raw_expiration_time = some v ∧ st1.raw_creation_time = st.raw_creation_time ∧
      st1.creation_time = st.creation_time ∧ st1.key_id = st.key_id) ∧
    (sp.subtype = 16 → ∃ k, get_key_id sp.data 0 = some k ∧ st1.key_id = some k ∧
      st1.raw_creation_time = st.raw_creation_time ∧ st1.creation_time = st.creation_time ∧
      st1.raw_expiration_time = st.raw_expiration_time) ∧
    (sp.subtype ≠ 2 → sp.subtype ≠ 3 → sp.subtype ≠ 16 →
      st1.raw_creation_time = st.raw_creation_time ∧ st1.creation_time = st.creation_time ∧
      st1.raw_expiration_time = st.raw_expiration_time ∧ st1.key_id = st.key_id) := by
  unfold apply_sub at h
  by_cases h2 : sp.subtype = 2
  · rw [if_pos h2] at h
    cases hg : get_int4 sp.data 0 with
    | none => rw [hg] at h; exact Except.noConfusion h
    | some v =>
      rw [hg] at h
      simp only [Except.ok.injEq] at h
      subst h
      exact ⟨rfl, rfl, fun _ => ⟨v, rfl, rfl, rfl, rfl, rfl⟩,
        fun h3 => by omega, fun h16 => by omega, fun hn => by omega⟩
  · rw [if_neg h2] at h
    by_cases h3 : sp.subtype = 3
    · rw [if_pos h3] at h
      cases hg : get_int4 sp.data 0 with
      | none => rw [hg] at h; exact Except.noConfusion h
      | some v =>
        rw [hg] at h
        simp only [Except.ok.injEq] at h
        subst h
        exact ⟨rfl, rfl, fun hx => by omega, fun _ => ⟨v, rfl, rfl, rfl, rfl, rfl⟩,
          fun h16 => by omega, fun _ hn => by omega⟩
    · rw [if_neg h3] at h
      by_cases h16 : sp.subtype = 16
      · rw [if_pos h16] at h
        cases hg : get_key_id sp.data 0 with
        | none => rw [hg] at h; exact Except.noConfusion h
        | some k =>
          rw [hg] at h
          simp only [Except.ok.injEq] at h
          subst h
          exact ⟨rfl, rfl, fun hx => by omega, fun hx => by omega,
            fun _ => ⟨k, rfl, rfl, rfl, rfl, rfl⟩, fun _ _ hn => by omega⟩
      · rw [if_neg h16] at h
        simp only [Except.ok.injEq] at h
        subst h
        exact ⟨rfl, rfl, fun hx => by omega, fun hx => by omega, fun hx => by omega,
          fun _ _ _ => ⟨rfl, rfl, rfl, rfl⟩⟩

/-- The subpacket fold appends exactly the scanned subpackets. -/
theorem scan_fold_subpackets (L : List SignatureSubpacket) : ∀ st st',
    scan_fold st L = .ok st' → st'.subpackets = st.subpackets ++ L := by
  induction L with
  | nil =>
    intro st st' h
    simp only [scan_fold, Except.ok.injEq] at h
    subst h
    simp
  | cons sp L ih =>
    intro st st' h
    simp only [scan_fold] at h
    cases happ : apply_sub st sp with
    | error e => simp only [happ] at h; exact Except.noConfusion h
    | ok st1 =>
      simp only [happ] at h
      obtain ⟨hsub, -, -, -, -, -⟩ := apply_sub_ok st sp st1 happ
      rw [ih st1 st' h, hsub]
      simp

/-- The subpacket fold never touches the expiration time. -/
theorem scan_fold_exp (L : List SignatureSubpacket) : ∀ st st',
    scan_fold st L = .ok st' → st'.expiration_time = st.expiration_time := by
  induction L with
  | nil =>
    intro st st' h
    simp only [scan_fold, Except.ok.injEq] at h
    subst h
    rfl
  | cons sp L ih =>
    intro st st' h
    simp only [scan_fold] at h
    cases happ : apply_sub st sp with
    | error e => simp only [happ] at h; exact Except.noConfusion h
    | ok st1 =>
      simp only [happ] at h
      obtain ⟨-, hexp, -, -, -, -⟩ := apply_sub_ok st sp st1 happ
      rw [ih st1 st' h, hexp]

/-- After the fold, both creation-time fields hold the value of the last
subtype-2 subpacket, or the incoming values when none was scanned. -/
theorem scan_fold_ct (L : List SignatureSubpacket) : ∀ st st',
    scan_fold st L = .ok st' →
    st'.raw_creation_time = (match last_field L 2 with
      | some x => get_int4 x.data 0
      | none => st.raw_creation_time) ∧
    st'.creation_time = (match last_field L 2 with
      | some x => get_int4 x.data 0
      | none => st.creation_time) := by
  induction L with
  | nil =>
    intro st st' h
    simp only [scan_fold, Except.ok.injEq] at h
    subst h
    exact ⟨rfl, rfl⟩
  | cons sp L ih =>
    intro st st' h
    simp only [scan_fold] at h
    cases happ : apply_sub st sp with
    | error e => simp only [happ] at h; exact Except.noConfusion h
    | ok st1 =>
      simp only [happ] at h
      obtain ⟨hrc, hc⟩ := ih st1 st' h
      obtain ⟨-, -, c2, c3, c16, cother⟩ := apply_sub_ok st sp st1 happ
      rw [last_field_cons]
      by_cases h2 : sp.subtype = 2
      · rw [if_pos h2]
        obtain ⟨v, hg, hv1, hv2, -, -⟩ := c2 h2
        cases hl : last_field L 2 with
        | some x =>
          simp only [hl] at hrc hc ⊢
          exact ⟨hrc, hc⟩
        | none =>
          simp only [hl] at hrc hc ⊢
          exact ⟨by rw [hrc, hv1, hg], by rw [hc, hv2, hg]⟩
      · rw [if_neg h2]
        have hfields : st1.raw_creation_time = st.raw_creation_time ∧
            st1.creation_time = st.creation_time := by
          by_cases h3 : sp.subtype = 3
          · obtain ⟨v, -, -, hf1, hf2, -⟩ := c3 h3
            exact ⟨hf1, hf2⟩
          · by_cases h16 : sp.subtype = 16
            · obtain ⟨k, -, -, hf1, hf2, -⟩ := c16 h16
              exact ⟨hf1, hf2⟩
            · obtain ⟨hf1, hf2, -, -⟩ := cother h2 h3 h16
              exact ⟨hf1, hf2⟩
        cases hl : last_field L 2 with
        | some x =>
          simp only [hl] at hrc hc ⊢
          exact ⟨hrc, hc⟩
        | none =>
          simp only [hl] at hrc hc ⊢
          exact ⟨by rw [hrc, hfields.1], by rw [hc, hfields.2]⟩

/-- After the fold, the raw expiration field holds the value of the last
subtype-3 subpacket, or the incoming value when none was scanned. -/
theorem scan_fold_rexp (L : List SignatureSubpacket) : ∀ st st',
    scan_fold st L = .ok st' →
    st'.raw_expiration_time = (match last_field L 3 with
      | some x => get_int4 x.data 0
      | none => st.raw_expiration_time) := by
  induction L with
  | nil =>
    intro st st' h
    simp only [scan_fold, Except.ok.injEq] at h
    subst h
    rfl
  | cons sp L ih =>
    intro st st' h
    simp only [scan_fold] at h
    cases happ : apply_sub st sp with
    | error e => simp only [happ] at h; exact Except.noConfusion h
    | ok st1 =>
      simp only [happ] at h
      have hrx := ih st1 st' h
      obtain ⟨-, -, c2, c3, c16, cother⟩ := apply_sub_ok st sp st1 happ
      rw [last_field_cons]
      by_cases h3 : sp.subtype = 3
      · rw [if_pos h3]
        obtain ⟨v, hg, hv1, -, -, -⟩ := c3 h3
        cases hl : last_field L 3 with
        | some x =>
          simp only [hl] at hrx ⊢
          exact hrx
        | none =>
          simp only [hl] at hrx ⊢
          rw [hrx, hv1, hg]
      · rw [if_neg h3]
        have hfield : st1.raw_expiration_time = st.raw_expiration_time := by
          by_cases h2 : sp.subtype = 2
          · obtain ⟨v, -, -, -, hf, -⟩ := c2 h2
            exact hf
          · by_cases h16 : sp.subtype = 16
            · obtain ⟨k, -, -, -, -, hf⟩ := c16 h16
              exact hf
            · exact (cother h2 h3 h16).2.2.1
        cases hl : last_field L 3 with
        | some x =>
          simp only [hl] at hrx ⊢
          exact hrx
        | none =>
          simp only [hl] at hrx ⊢
          rw [hrx, hfield]

/-- After the fold, the key id holds the value of the last subtype-16
subpacket, or the incoming value when none was scanned. -/
theorem scan_fold_kid (L : List SignatureSubpacket) : ∀ st st',
    scan_fold st L = .ok st' →
    st'.key_id = (match last_field L 16 with
      | some x => get_key_id x.data 0
      | none => st.key_id) := by
  induction L with
  | nil =>
    intro st st' h
    simp only [scan_fold, Except.ok.injEq] at h
    subst h
    rfl
  | cons sp L ih =>
    intro st st' h
    simp only [scan_fold] at h
    cases happ : apply_sub st sp with
    | error e => simp only [happ] at h; exact Except.noConfusion h
    | ok st1 =>
      simp only [happ] at h
      have hk := ih st1 st' h
      obtain ⟨-, -, c2, c3, c16, cother⟩ := apply_sub_ok st sp st1 happ
      rw [last_field_cons]
      by_cases h16 : sp.subtype = 16
      · rw [if_pos h16]
        obtain ⟨k, hg, hv1, -, -, -⟩ := c16 h16
        cases hl : last_field L 16 with
        | some x =>
          simp only [hl] at hk ⊢
          exact hk
        | none =>
          simp only [hl] at hk ⊢
          rw [hk, hv1, hg]
      · rw [if_neg h16]
        have hfield : st1.key_id = st.key_id := by
          by_cases h2 : sp.subtype = 2
          · obtain ⟨v, -, -, -, -, hf⟩ := c2 h2
            exact hf
          · by_cases h3 : sp.subtype = 3
            · obtain ⟨v, -, -, -, -, hf⟩ := c3 h3
              exact hf
            · exact (cother h2 h3 h16).2.2.2
        cases hl : last_field L 16 with
        | some x =>
          simp only [hl] at hk ⊢
          exact hk
        | none =>
          simp only [hl] at hk ⊢
          rw [hk, hfield]

/-- Every successful loop run is a fold of the side effects over some list
of subpackets carrying the hashed flag of the region. -/
theorem loop_ok_scan (data : List Nat) (endPos : Nat) (hashed : Bool) :
    ∀ fuel offset st st',
      parse_subpackets_loop data endPos hashed fuel offset st = .ok st' →
      ∃ L, (∀ sp ∈ L, sp.hashed = hashed) ∧ scan_fold st L = .ok st' := by
  intro fuel
  induction fuel with
  | zero =>
    intro offset st st' h
    simp only [parse_subpackets_loop, Except.ok.injEq] at h
    subst h
    exact ⟨[], by simp, rfl⟩
  | succ fuel ih =>
    intro offset st st' h
    simp only [parse_subpackets_loop] at h
    by_cases hoff : offset < endPos
    · rw [if_pos hoff] at h
      cases hn : new_tag_length data offset with
      | none => simp only [hn] at h; exact Except.noConfusion h
      | some v =>
        obtain ⟨so, l0, pt⟩ := v
        simp only [hn] at h
        cases hb : data[offset + 1 + so]? with
        | none => simp only [hb] at h; exact Except.noConfusion h
        | some raw =>
          simp only [hb] at h
          cases happ : apply_sub st (SignatureSubpacket.make raw hashed
              ((data.drop (offset + 2 + so)).take (l0 - 1))) with
          | error e => simp only [happ] at h; exact Except.noConfusion h
          | ok st1 =>
            simp only [happ] at h
            obtain ⟨L, hL, hscan⟩ := ih (offset + 1 + so + l0) st1 st' h
            refine ⟨SignatureSubpacket.make raw hashed
              ((data.drop (offset + 2 + so)).take (l0 - 1)) :: L, ?_, ?_⟩
            · intro sp hsp
              rcases List.mem_cons.mp hsp with rfl | hsp
              · rfl
              · exact hL sp hsp
            · simp only [scan_fold, happ]
              exact hscan
    · rw [if_neg hoff] at h
      simp only [Except.ok.injEq] at h
      subst h
      exact ⟨[], by simp, rfl⟩

/-- A successful region scan decomposes into a fold and the expiration
recomputation. -/
theorem parse_subpackets_ok (data : List Nat) (oo ol : Nat) (hashed : Bool)
    (st st' : SigFields) (h : parse_subpackets data oo ol hashed st = .ok st') :
    ∃ st1, (∃ L, (∀ sp ∈ L, sp.hashed = hashed) ∧ scan_fold st L = .ok st1) ∧
      sig_expiration_update st1 = .ok st' := by
  unfold parse_subpackets at h
  cases hl : parse_subpackets_loop data (oo + ol) hashed (ol + 1) oo st with
  | error e => simp only [hl] at h; exact Except.noConfusion h
  | ok st1 =>
    simp only [hl] at h
    exact ⟨st1, loop_ok_scan data (oo + ol) hashed (ol + 1) oo st st1 hl, h⟩

/-- The expiration recomputation: every other field passes through, and the
expiration outcome follows the Python truthiness of the raw seconds. -/
theorem sig_exp_update_fields (st st' : SigFields) (h : sig_expiration_update st = .ok st') :
    st'.subpackets = st.subpackets ∧ st'.raw_creation_time = st.raw_creation_time ∧
    st'.creation_time = st.creation_time ∧
    st'.raw_expiration_time = st.raw_expiration_time ∧ st'.key_id = st.key_id ∧
    (st.raw_expiration_time = none → st'.expiration_time = st.expiration_time) ∧
    (st.raw_expiration_time = some 0 → st'.expiration_time = st.expiration_time) ∧
    (∀ v, st.raw_expiration_time = some v → v ≠ 0 →
      ∃ c, st.creation_time = some c ∧ st'.expiration_time = some (c + v)) := by
  unfold sig_expiration_update at h
  cases hre : st.raw_expiration_time with
  | none =>
    simp only [hre, Except.ok.injEq] at h
    subst h
    exact ⟨rfl, rfl, rfl, hre, rfl, fun _ => rfl, fun habs => Option.noConfusion habs,
      fun v hv _ => Option.noConfusion hv⟩
  | some v0 =>
    simp only [hre] at h
    by_cases hv0 : v0 = 0
    · subst hv0
      rw [if_pos rfl] at h
      simp only [Except.ok.injEq] at h
      subst h
      exact ⟨rfl, rfl, rfl, hre, rfl, fun habs => Option.noConfusion habs, fun _ => rfl,
        fun v hv hvne => absurd (Option.some.inj hv).symm hvne⟩
    · rw [if_neg hv0] at h
      cases hc : st.creation_time with
      | none => simp only [hc] at h; exact Except.noConfusion h
      | some c =>
        simp only [hc, Except.ok.injEq] at h
        subst h
        refine ⟨rfl, rfl, rfl, rfl, rfl, fun habs => Option.noConfusion habs,
          fun habs => absurd (Option.some.inj habs) hv0, fun v hv hvne => ?_⟩
        exact ⟨c, rfl, by rw [← Option.some.inj hv]⟩

/-- The combined behavior of a successful v4 signature parse: the subpacket
list is the hashed region followed by the unhashed one, the creation time,
issuer key id and raw expiration hold the last matching subpacket values,
and the expiration time follows the truthiness-guarded recomputation. -/
theorem sig_v4_master (data : List Nat) (r : SigFields)
    (h0 : data[0]? = some 4) (h : signature_parse data = .ok r) :
    (∃ L1 L2, r.subpackets = L1 ++ L2 ∧ (∀ sp ∈ L1, sp.hashed = true) ∧
      (∀ sp ∈ L2, sp.hashed = false)) ∧
    r.raw_creation_time = (match last_field r.subpackets 2 with
      | some x => get_int4 x.data 0
      | none => none) ∧
    r.creation_time = r.raw_creation_time ∧
    r.key_id = (match last_field r.subpackets 16 with
      | some x => get_key_id x.data 0
      | none => none) ∧
    r.raw_expiration_time = (match last_field r.subpackets 3 with
      | some x => get_int4 x.data 0
      | none => none) ∧
    (∀ v, r.raw_expiration_time = some v → v ≠ 0 →
      ∃ c, r.creation_time = some c ∧ r.expiration_time = some (c + v)) ∧
    (last_field r.subpackets 3 = none → r.expiration_time = none) := by
  unfold signature_parse at h
  simp only [h0, if_true] at h
  rw [if_neg (by decide)] at h
  unfold sig_v4_fields at h
  cases h1 : data[1]? with
  | none => simp only [h1] at h; exact Except.noConfusion h
  | some t =>
  simp only [h1] at h
  cases h2 : data[2]? with
  | none => simp only [h2] at h; exact Except.noConfusion h
  | some pa =>
  simp only [h2] at h
  cases h3 : data[3]? with
  | none => simp only [h3] at h; exact Except.noConfusion h
  | some ha =>
  simp only [h3] at h
  cases hg2 : get_int2 data 4 with
  | none => simp only [hg2] at h; exact Except.noConfusion h
  | some hlen =>
  simp only [hg2] at h
  split at h
  · exact Except.noConfusion h
  rename_i st1 hp1
  cases hg2b : get_int2 data (6 + hlen) with
  | none => simp only [hg2b] at h; exact Except.noConfusion h
  | some ulen =>
  simp only [hg2b] at h
  split at h
  · exact Except.noConfusion h
  rename_i st2 hp2
  simp only [Except.ok.injEq] at h
  obtain ⟨sA, ⟨L1, hL1, hscan1⟩, hfin1⟩ := parse_subpackets_ok _ _ _ _ _ _ hp1
  obtain ⟨sB, ⟨L2, hL2, hscan2⟩, hfin2⟩ := parse_subpackets_ok _ _ _ _ _ _ hp2
  obtain ⟨f1sub, f1rct, f1ct, f1rexp, f1kid, f1none, f1zero, f1pos⟩ :=
    sig_exp_update_fields _ _ hfin1
  obtain ⟨f2sub, f2rct, f2ct, f2rexp, f2kid, f2none, f2zero, f2pos⟩ :=
    sig_exp_update_fields _ _ hfin2
  have s1sub := scan_fold_subpackets L1 _ _ hscan1
  obtain ⟨s1rct, s1ctt⟩ := scan_fold_ct L1 _ _ hscan1
  have s1rexp := scan_fold_rexp L1 _ _ hscan1
  have s1kid := scan_fold_kid L1 _ _ hscan1
  have s1exp := scan_fold_exp L1 _ _ hscan1
  have s2sub := scan_fold_subpackets L2 _ _ hscan2
  obtain ⟨s2rct, s2ctt⟩ := scan_fold_ct L2 _ _ hscan2
  have s2rexp := scan_fold_rexp L2 _ _ hscan2
  have s2kid := scan_fold_kid L2 _ _ hscan2
  have s2exp := scan_fold_exp L2 _ _ hscan2
  have hrsub : r.subpackets = st2.subpackets := by rw [← h]
  have hrrct : r.raw_creation_time = st2.raw_creation_time := by rw [← h]
  have hrct : r.creation_time = st2.creation_time := by rw [← h]
  have hrrexp : r.raw_expiration_time = st2.raw_expiration_time := by rw [← h]
  have hrkid : r.key_id = st2.key_id := by rw [← h]
  have hrexp : r.expiration_time = st2.expiration_time := by rw [← h]
  have hsubch : r.subpackets = L1 ++ L2 := by
    rw [hrsub, f2sub, s2sub, f1sub, s1sub]
    simp [SigFields.init]
  have crct : r.raw_creation_time = (match last_field L2 2 with
      | some x => get_int4 x.data 0
      | none => (match last_field L1 2 with
        | some y => get_int4 y.data 0
        | none => none)) := by
    rw [hrrct, f2rct, s2rct, f1rct, s1rct]
    simp [SigFields.init]
  have cct : r.creation_time = (match last_field L2 2 with
      | some x => get_int4 x.data 0
      | none => (match last_field L1 2 with
        | some y => get_int4 y.data 0
        | none => none)) := by
    rw [hrct, f2ct, s2ctt, f1ct, s1ctt]
    simp [SigFields.init]
  have ckid : r.key_id = (match last_field L2 16 with
      | some x => get_key_id x.data 0
      | none => (match last_field L1 16 with
        | some y => get_key_id y.data 0
        | none => none)) := by
    rw [hrkid, f2kid, s2kid, f1kid, s1kid]
    simp [SigFields.init]
  have crexp : r.raw_expiration_time = (match last_field L2 3 with
      | some x => get_int4 x.data 0
      | none => (match last_field L1 3 with
        | some y => get_int4 y.data 0
        | none => none)) := by
    rw [hrrexp, f2rexp, s2rexp, f1rexp, s1rexp]
    simp [SigFields.init]
  have happ2 : (match last_field (L1 ++ L2) 2 with
      | some x => get_int4 x.data 0
      | none => (none : Option Nat)) = (match last_field L2 2 with
      | some x => get_int4 x.data 0
      | none => (match last_field L1 2 with
        | some y => get_int4 y.data 0
        | none => none)) := by
    rw [last_field_append]
    cases hB : last_field L2 2 with
    | some x => rfl
    | none => rfl
  have happ16 : (match last_field (L1 ++ L2) 16 with
      | some x => get_key_id x.data 0
      | none => (none : Option (List Nat))) = (match last_field L2 16 with
      | some x => get_key_id x.data 0
      | none => (match last_field L1 16 with
        | some y => get_key_id y.data 0
        | none => none)) := by
    rw [last_field_append]
    cases hB : last_field L2 16 with
    | some x => rfl
    | none => rfl
  have happ3 : (match last_field (L1 ++ L2) 3 with
      | some x => get_int4 x.data 0
      | none => (none : Option Nat)) = (match last_field L2 3 with
      | some x => get_int4 x.data 0
      | none => (match last_field L1 3 with
        | some y => get_int4 y.data 0
        | none => none)) := by
    rw [last_field_append]
    cases hB : last_field L2 3 with
    | some x => rfl
    | none => rfl
  refine ⟨⟨L1, L2, hsubch, hL1, hL2⟩, ?_, ?_, ?_, ?_, ?_, ?_⟩
  · rw [hsubch, happ2]
    exact crct
  · rw [cct, crct]
  · rw [hsubch, happ16]
    exact ckid
  · rw [hsubch, happ3]
    exact crexp
  · intro v hv hvne
    have hsB : sB.raw_expiration_time = some v := by
      rw [← f2rexp, ← hrrexp]
      exact hv
    obtain ⟨c, hcB, hexpB⟩ := f2pos v hsB hvne
    refine ⟨c, ?_, ?_⟩
    · rw [hrct, f2ct]
      exact hcB
    · rw [hrexp]
      exact hexpB
  · intro hnone
    rw [hsubch, last_field_append] at hnone
    cases hB : last_field L2 3 with
    | some x =>
      simp only [hB] at hnone
      exact Option.noConfusion hnone
    | none =>
      simp only [hB] at hnone
      have hsA : sA.raw_expiration_time = none := by
        rw [s1rexp]
        simp only [hnone]
        rfl
      have hst1e : st1.expiration_time = none := by
        rw [f1none hsA, s1exp]
        rfl
      have hsB2 : sB.raw_expiration_time = none := by
        rw [s2rexp]
        simp only [hB]
        rw [f1rexp]
        exact hsA
      have hsBe : sB.expiration_time = none := by
        rw [s2exp]
        exact hst1e
      rw [hrexp, f2none hsB2]
      exact hsBe

/-- C4: after a successful v4 signature parse, the subpacket list is the
hashed region in stream order followed by the unhashed one, both
creation-time fields hold the big-endian u32 of the last subtype-2
subpacket in that order, the key id holds the identifier of the last
subtype-16 subpacket, and a field with no matching subpacket stays unset. -/
theorem sig_v4_subpacket_last_wins (data : List Nat) (r : SigFields)
    (h0 : data[0]? = some 4) (h : signature_parse data = .ok r) :
    (∃ L1 L2, r.subpackets = L1 ++ L2 ∧ (∀ sp ∈ L1, sp.hashed = true) ∧
      (∀ sp ∈ L2, sp.hashed = false)) ∧
    r.raw_creation_time = (match last_field r.subpackets 2 with
      | some x => get_int4 x.data 0
      | none => none) ∧
    r.creation_time = r.raw_creation_time ∧
    r.key_id = (match last_field r.subpackets 16 with
      | some x => get_key_id x.data 0
      | none => none) := by
  obtain ⟨a, b, c, d, -, -, -⟩ := sig_v4_master data r h0 h
  exact ⟨a, b, c, d⟩

set_option maxRecDepth 40000 in
/-- Witness for C4 on a v4 signature with two creation-time subpackets and
an issuer subpacket: the later creation time wins. -/
theorem sig_v4_subpacket_last_wins_witness :
    c4_R.raw_creation_time = some 20 ∧ c4_R.creation_time = c4_R.raw_creation_time ∧
    c4_R.key_id = some [1, 2, 3, 4, 5, 6, 7, 8] := by
  have h := sig_v4_subpacket_last_wins c4_d c4_R (by decide) (by decide)
  refine ⟨?_, h.2.2.1, ?_⟩
  · rw [h.2.1]
    decide
  · rw [h.2.2.2]
    decide

/-- C9 amended: a nonzero-valued last subtype-3 subpacket makes the
expiration time equal the creation time plus that many seconds, and with no
subtype-3 subpacket the expiration time stays unset; a zero value does not
update it, because Python tests the raw integer for truthiness. -/
theorem sig_v4_expiration (data : List Nat) (r : SigFields)
    (h0 : data[0]? = some 4) (h : signature_parse data = .ok r) :
    (∀ sp, last_field r.subpackets 3 = some sp → ∀ v, get_int4 sp.data 0 = some v →
      v ≠ 0 → ∃ c, r.creation_time = some c ∧ r.expiration_time = some (c + v)) ∧
    (last_field r.subpackets 3 = none → r.expiration_time = none) := by
  obtain ⟨-, -, -, -, hrexp, hpos, hnone⟩ := sig_v4_master data r h0 h
  refine ⟨?_, hnone⟩
  intro sp hsp v hv hvne
  apply hpos v ?_ hvne
  rw [hrexp]
  simp only [hsp]
  exact hv

set_option maxRecDepth 40000 in
/-- Witness for C9 on a v4 signature with creation time 100 and a 50-second
expiration subpacket. -/
theorem sig_v4_expiration_witness :
    c9w_R.creation_time = some 100 ∧ c9w_R.expiration_time = some 150 := by
  have h := sig_v4_expiration c9w_d c9w_R (by decide) (by decide)
  obtain ⟨c, hc, he⟩ :=
    h.1 ⟨3, 3, true, false, 4, [0, 0, 0, 50]⟩ (by decide) 50 (by decide) (by decide)
  have hc2 : (some 100 : Option Nat) = some c := hc
  obtain rfl : c = 100 := (Option.some.inj hc2).symm
  exact ⟨hc, he⟩

set_option maxRecDepth 40000 in
/-- C9 counterexample: a v4 signature whose expiration subpacket carries the
value 0 parses successfully with an unset expiration_time, although the
claim requires creation_time plus zero seconds. -/
theorem sig_v4_expiration_zero_cex :
    signature_parse c9c_d = .ok c9c_R ∧
    (c9c_R.subpackets.filter fun sp => sp.subtype = 3) ≠ [] ∧
    c9c_R.creation_time = some 100 ∧
    c9c_R.expiration_time = none :=
  ⟨by decide, by decide, by decide, by decide⟩

end Pgpdump

